import Mathlib

/-!
Shallow embedding of the dp-map-renderer SVG rendering core
(src/renderer/svg.go) and the request data model it consumes.

Go float64 arithmetic is embedded as exact rational arithmetic (ℚ);
Go runtime panics (index out of range, nil-pointer dereference) are
embedded as `none` of an `Option` result.  Functions from this
repository that are referenced by svg.go but whose source is not under
src/ (the models package, htmlutil.GetApproximateTextWidth, the
geojson2svg renderer, the topojson decoder, idPrefix) are modelled from
the spec where noted.
-/

/-- ChoroplethBreak models models.ChoroplethBreak: a class lower bound and its colour
(fields used by svg.go: LowerBound, Colour). -/
structure ChoroplethBreak where
  LowerBound : ℚ
  Colour : String
deriving DecidableEq, Repr

/-- DataRow models models.DataRow: a data value keyed by a feature id. -/
structure DataRow where
  ID : String
  Value : ℚ
deriving DecidableEq, Repr

/-- Choropleth models models.Choropleth, with the fields read by svg.go.
ValuePfx models the Go field ValuePrefix. -/
structure Choropleth where
  ReferenceValue : ℚ
  ReferenceValueText : String
  ValuePfx : String
  ValueSuffix : String
  Breaks : List ChoroplethBreak
  UpperBound : ℚ
  HorizontalLegendPosition : String
  VerticalLegendPosition : String
deriving DecidableEq, Repr

/-- TopoObject is a minimal model of one named object of a topology: the decoder
(not under src/) copies each object's property bag onto the decoded feature. -/
structure TopoObject where
  ID : String
  Properties : List (String × String)
deriving DecidableEq, Repr

/-- Topojson models models.Topojson as used by svg.go: an arc table and a
collection of named objects (getGeoJSON only tests both for emptiness). -/
structure Topojson where
  Arcs : List (List (ℚ × ℚ))
  Objects : List TopoObject
deriving DecidableEq, Repr

/-- Geography models models.Geography: the (optional) topology plus the names of
the id property and the display-name property. -/
structure Geography where
  Topojson : Option Topojson
  IDProperty : String
  NameProperty : String
deriving DecidableEq, Repr

/-- RenderRequest models models.RenderRequest with the fields read by svg.go.
`Data = none` models a nil Go slice (absent from the JSON body), which
setChoroplethColoursAndTitles treats differently from an empty slice. -/
structure RenderRequest where
  Filename : String
  Geography : Option Geography
  Data : Option (List DataRow)
  Choropleth : Option Choropleth
  DefaultWidth : ℚ
  MinWidth : ℚ
  MaxWidth : ℚ
  IncludeFallbackPng : Bool
  FontSize : ℤ
deriving DecidableEq, Repr

/-- Feature models a geojson feature as svg.go manipulates it: a feature id and
a property bag (geometry is never inspected by the embedded functions). -/
structure Feature where
  ID : String
  Properties : List (String × String)
deriving DecidableEq, Repr

/-- FeatureCollection models geojson.FeatureCollection. -/
structure FeatureCollection where
  features : List Feature
deriving DecidableEq, Repr

/-- RegionClassName is the class assigned to all map regions (svg.go line 18). -/
def RegionClassName : String := "mapRegion"

/-- MissingDataText is appended to the title of a region with no data (svg.go line 21). -/
def MissingDataText : String := "data unavailable"

/-- LegendPositionBefore models models.LegendPositionBefore. -/
def LegendPositionBefore : String := "before"

/-- LegendPositionAfter models models.LegendPositionAfter. -/
def LegendPositionAfter : String := "after"

/-- valueAndColour models the svg.go struct of the same name: a numeric value
with its assigned colour. -/
structure valueAndColour where
  value : ℚ
  colour : String
deriving DecidableEq, Repr

/-- Modelled from the spec: htmlutil.GetApproximateTextWidth (package htmlutil,
not under src/) approximates the rendered pixel width of a string as a
per-character average width scaled by the font size.  The average-width
constant is modelled as 1/2 of the font size per character. -/
def GetApproximateTextWidth (s : String) (fontSize : ℤ) : ℚ :=
  (s.length : ℚ) * (fontSize : ℚ) / 2

/-- Modelled: Go fmt %g formatting of a float64 value, rendered here as the
canonical decimal/fraction string of the exact rational.  The claims use the
formatted text only through its identity and its approximate width. -/
def formatG (q : ℚ) : String :=
  if q.den = 1 then toString q.num else toString q.num ++ "/" ++ toString q.den

/-- Modelled: Go fmt %f and %.f formatting, rendered like `formatG` (the exact
digit rendering is immaterial to every claim). -/
def fmtF (q : ℚ) : String := formatG q

/-- Modelled from the spec: renderer.idPrefix (html.go, not under src/) derives
the deterministic element-id prefix from the request's unique filename. -/
def idPfx (request : RenderRequest) : String := "map-" ++ request.Filename

/-- getProp looks a property up in a feature's property bag (Go map read). -/
def getProp (f : Feature) (name : String) : Option String :=
  (f.Properties.find? (fun p => decide (p.1 = name))).map (fun p => p.2)

/-- setAssoc writes a key in an association list, replacing the first binding
of that key or appending a new one (Go map write). -/
def setAssoc : List (String × String) → String → String → List (String × String)
  | [], name, v => [(name, v)]
  | p :: rest, name, v =>
    if p.1 = name then (name, v) :: rest else p :: setAssoc rest name v

/-- setFeatureProp writes a property in a feature's property bag. -/
def setFeatureProp (f : Feature) (name v : String) : Feature :=
  { f with Properties := setAssoc f.Properties name v }

/-- appendProperty models svg.go appendProperty: sets a property, prepending
the new value to any existing value separated by a space (lines 183-189). -/
def appendProperty (f : Feature) (propertyName v : String) : Feature :=
  let s := match getProp f propertyName with
    | some original => v ++ " " ++ original
    | none => v
  setFeatureProp f propertyName s

/-- sortBreaks models svg.go sortBreaks (lines 240-250): a copy of the breaks
sorted ascending or descending by lower bound.  Go's sort.Slice (an unstable
comparison sort over a strict comparator) is determinized as an insertion sort;
for the strictly increasing bounds required of a choropleth the result is the
same. -/
def sortBreaks (breaks : List ChoroplethBreak) (asc : Bool) : List ChoroplethBreak :=
  if asc then List.insertionSort (fun a b => a.LowerBound ≤ b.LowerBound) breaks
  else List.insertionSort (fun a b => b.LowerBound ≤ a.LowerBound) breaks

/-- getColour models svg.go getColour (lines 229-237): the colour of the first
break (in the given order) whose lower bound is ≤ value, falling back to the
last break's colour.  On an empty slice Go indexes breaks[-1] and panics:
modelled as `none`. -/
def getColour (value : ℚ) (breaks : List ChoroplethBreak) : Option String :=
  match breaks.find? (fun b => decide (b.LowerBound ≤ value)) with
  | some b => some b.Colour
  | none => breaks.getLast?.map (fun b => b.Colour)

/-- mapRows is the loop body of mapDataToColour: one map entry per data row,
keyed by the prefixed row id; `none` when getColour panics. -/
def mapRows (breaks : List ChoroplethBreak) (pfx : String) :
    List DataRow → Option (List (String × valueAndColour))
  | [] => some []
  | row :: rest =>
    match getColour row.Value breaks, mapRows breaks pfx rest with
    | some c, some dm => some ((pfx ++ row.ID, ⟨row.Value, c⟩) :: dm)
    | _, _ => none

/-- mapDataToColour models svg.go mapDataToColour (lines 218-227): a map from
prefixed DataRow id to its value and colour, colours taken against the breaks
sorted descending. -/
def mapDataToColour (data : List DataRow) (choropleth : Choropleth) (pfx : String) :
    Option (List (String × valueAndColour)) :=
  mapRows (sortBreaks choropleth.Breaks false) pfx data

/-- mapLookup reads the id map with Go map semantics: the last insertion for a
key wins. -/
def mapLookup (dm : List (String × valueAndColour)) (key : String) : Option valueAndColour :=
  (dm.reverse.find? (fun p => decide (p.1 = key))).map (fun p => p.2)

/-- matchingRow is the data-level counterpart of the id map: the last row of
the data slice whose prefixed id equals the given feature id. -/
def matchingRow (data : List DataRow) (pfx : String) (id : String) : Option DataRow :=
  data.reverse.find? (fun row => decide (pfx ++ row.ID = id))

/-- setFeatureIDs models svg.go setFeatureIDs (lines 160-172): each feature id
becomes the prefixed id-property value when present and non-empty, otherwise
the prefixed existing id when non-empty, otherwise unchanged.  (The Go
is-a-string checks are vacuous here because the model's properties and ids are
strings.) -/
def setFeatureIDs (features : List Feature) (idProperty : String) (pfx : String) :
    List Feature :=
  features.map (fun f =>
    match getProp f idProperty with
    | some id =>
      if 0 < id.length then { f with ID := pfx ++ id }
      else if 0 < f.ID.length then { f with ID := pfx ++ f.ID } else f
    | none =>
      if 0 < f.ID.length then { f with ID := pfx ++ f.ID } else f)

/-- setClassProperty models svg.go setClassProperty (lines 175-179). -/
def setClassProperty (features : List Feature) (className : String) : List Feature :=
  features.map (fun f => appendProperty f "class" className)

/-- processFeature is the loop body of setChoroplethColoursAndTitles (svg.go
lines 201-215): a feature with a map entry gets a colour fill and a
value-bearing title; one without gets the missing-data style and title. -/
def processFeature (choropleth : Choropleth) (nameProperty : String)
    (dm : List (String × valueAndColour)) (missingValueStyle : String)
    (f : Feature) : Feature :=
  let title := (getProp f nameProperty).getD ""
  match mapLookup dm f.ID with
  | some vc =>
    appendProperty
      (setFeatureProp f nameProperty
        (title ++ " " ++ choropleth.ValuePfx ++ formatG vc.value ++ choropleth.ValueSuffix))
      "style" ("fill: " ++ vc.colour ++ ";")
  | none =>
    appendProperty
      (setFeatureProp f nameProperty (title ++ " " ++ MissingDataText))
      "style" missingValueStyle

/-- processFeatures runs processFeature over the features; reading the name
property dereferences request.Geography per feature, so a nil geography with a
non-empty feature list panics (`none`). -/
def processFeatures (choropleth : Choropleth) (geography : Option Geography)
    (dm : List (String × valueAndColour)) (missingValueStyle : String) :
    List Feature → Option (List Feature)
  | [] => some []
  | f :: rest =>
    match geography with
    | none => none
    | some geo =>
      match processFeatures choropleth geography dm missingValueStyle rest with
      | none => none
      | some rest' =>
        some (processFeature choropleth geo.NameProperty dm missingValueStyle f :: rest')

/-- setChoroplethColoursAndTitles models svg.go setChoroplethColoursAndTitles
(lines 191-216): a no-op when the choropleth or the data slice is nil,
otherwise builds the id map (which panics inside getColour when the breaks are
empty and the data is not) and rewrites each feature's title and style. -/
def setChoroplethColoursAndTitles (features : List Feature) (request : RenderRequest) :
    Option (List Feature) :=
  match request.Choropleth, request.Data with
  | some choropleth, some data =>
    let id := idPfx request
    match mapDataToColour data choropleth (id ++ "-") with
    | none => none
    | some dm =>
      processFeatures choropleth request.Geography dm
        ("fill: url(#" ++ id ++ "-nodata);") features
  | _, _ => some features

/-- Modelled from the spec: the topojson decoder (models.Topojson.ToGeoJSON,
not under src/) yields one feature per object, in object order, with the
object's property bag copied onto the feature; the arc-stitching geometry is
not modelled because no embedded function inspects geometry. -/
def toGeoJSON (topo : Topojson) : FeatureCollection :=
  ⟨topo.Objects.map (fun o => ⟨o.ID, o.Properties⟩)⟩

/-- getGeoJSON models svg.go getGeoJSON (lines 132-143): nil when the
geography, its topojson, its arc table or its object collection is absent or
empty, otherwise the decoded feature collection. -/
def getGeoJSON (request : RenderRequest) : Option FeatureCollection :=
  match request.Geography with
  | none => none
  | some geo =>
    match geo.Topojson with
    | none => none
    | some topo =>
      if topo.Arcs.length = 0 ∨ topo.Objects.length = 0 then none
      else some (toGeoJSON topo)

/-- Modelled from the spec: geojson2svg GetHeightForWidth (not under src/)
derives the viewbox height from the width preserving the projected aspect
ratio; the ratio depends on geometry that is not modelled, represented here by
a fixed ratio.  No claim depends on the height. -/
def GetHeightForWidth (width : ℚ) : ℚ := width * 2 / 3

/-- getViewBoxDimensions models svg.go getViewBoxDimensions (lines 145-157):
the explicit width when positive, else the average of min and max width when
that is positive, else 400; height derived from the width. -/
def getViewBoxDimensions (request : RenderRequest) : ℚ × ℚ :=
  let width0 := request.DefaultWidth
  let width1 := if width0 ≤ 0 then (request.MinWidth + request.MaxWidth) / 2 else width0
  let width2 := if width1 ≤ 0 then 400 else width1
  (width2, GetHeightForWidth width2)

/-- breakInfo models the svg.go struct breakInfo (lines 493-499). -/
structure BreakInfo where
  LowerBound : ℚ
  UpperBound : ℚ
  RelativeSize : ℚ
  Colour : String
deriving DecidableEq, Repr

/-- sortDataByValue models the data sort in getSortedBreakInfo (line 509);
only the minimum (head) and maximum (last) values of the result are read, so
determinizing Go's unstable sort as an insertion sort is faithful. -/
def sortDataByValue (data : List DataRow) : List DataRow :=
  List.insertionSort (fun a b => a.Value ≤ b.Value) data

/-- svgSortedData is the sorted copy of the request's data slice (a nil slice
copies to an empty one). -/
def svgSortedData (request : RenderRequest) : List DataRow :=
  sortDataByValue (request.Data.getD [])

/-- svgMinValue models line 512: the smaller of the lowest data value and the
lowest break bound (0 in the unreachable empty cases). -/
def svgMinValue (request : RenderRequest) (choropleth : Choropleth) : ℚ :=
  match svgSortedData request, sortBreaks choropleth.Breaks true with
  | d0 :: _, b0 :: _ => min d0.Value b0.LowerBound
  | _, _ => 0

/-- svgMaxValue models lines 513-516: the choropleth's explicit upper bound,
unless it is below the highest break bound, in which case the highest data
value (0 in the unreachable empty cases). -/
def svgMaxValue (request : RenderRequest) (choropleth : Choropleth) : ℚ :=
  match svgSortedData request, sortBreaks choropleth.Breaks true with
  | d0 :: drest, b0 :: brest =>
    if choropleth.UpperBound < (List.getLast (b0 :: brest) (by simp)).LowerBound then
      (List.getLast (d0 :: drest) (by simp)).Value
    else choropleth.UpperBound
  | _, _ => 0

/-- breakInfoChain builds the breakInfo slice of getSortedBreakInfo for two or
more breaks (lines 519-525): each class spans from its (overridden, for the
first class) lower bound to the next class's lower bound, and the last class
spans to the maximum value.  RelativeSize is filled in by a second pass. -/
def breakInfoChain (lb : ℚ) (breaks : List ChoroplethBreak) (maxValue : ℚ) :
    List BreakInfo :=
  match breaks with
  | [] => []
  | [b] => [⟨lb, maxValue, 0, b.Colour⟩]
  | b :: c :: rest => ⟨lb, c.LowerBound, 0, b.Colour⟩ :: breakInfoChain c.LowerBound (c :: rest) maxValue

/-- getSortedBreakInfo models svg.go getSortedBreakInfo (lines 501-531).
Go panics modelled as `none`: an empty data slice (index out of range at
data[0]), empty breaks (index out of range at breaks[0]; unreachable from
PrepareSVGRequest), and exactly one break (line 524 writes through the still
nil pointer info[0] before line 525 allocates info[breakCount-1]). -/
def getSortedBreakInfo (request : RenderRequest) : Option (List BreakInfo × ℚ) :=
  match request.Choropleth with
  | none => none
  | some choropleth =>
    match svgSortedData request, sortBreaks choropleth.Breaks true with
    | [], _ => none
    | _, [] => none
    | _ :: _, [_] => none
    | _ :: _, b0 :: b1 :: brest =>
      let minValue := svgMinValue request choropleth
      let maxValue := svgMaxValue request choropleth
      let totalRange := maxValue - minValue
      some
        ((breakInfoChain minValue (b0 :: b1 :: brest) maxValue).map
          (fun b => { b with RelativeSize := (b.UpperBound - b.LowerBound) / totalRange }),
         (choropleth.ReferenceValue - minValue) / totalRange)

/-- getVerticalTickTextWidth models svg.go getVerticalTickTextWidth (lines
410-426); the non-nil request.Choropleth read by the Go body is passed
explicitly (both call sites guarantee it). -/
def getVerticalTickTextWidth (request : RenderRequest) (choropleth : Choropleth)
    (breaks : List BreakInfo) : ℚ × ℚ :=
  let maxTick := breaks.foldl
    (fun m b =>
      max (max m (GetApproximateTextWidth (formatG b.LowerBound) request.FontSize))
        (GetApproximateTextWidth (formatG b.UpperBound) request.FontSize))
    0
  let refTick := GetApproximateTextWidth choropleth.ReferenceValueText request.FontSize
  let refValue := GetApproximateTextWidth (formatG choropleth.ReferenceValue) request.FontSize
  let refWidth := max refTick refValue
  (maxTick + refWidth + 38, maxTick - refWidth)

/-- getVerticalLegendWidth models svg.go getVerticalLegendWidth (lines
400-406). -/
def getVerticalLegendWidth (request : RenderRequest) (choropleth : Choropleth)
    (breaks : List BreakInfo) : ℚ × ℚ :=
  let missingWidth := GetApproximateTextWidth MissingDataText request.FontSize + 12
  let titleWidth :=
    GetApproximateTextWidth (choropleth.ValuePfx ++ " " ++ choropleth.ValueSuffix)
      request.FontSize
  let maxWidth := max missingWidth titleWidth
  let ktw := getVerticalTickTextWidth request choropleth breaks
  (max maxWidth ktw.1 + 10, ktw.2)

/-- SVGRequest models the svg.go struct SVGRequest (lines 53-64): the request
plus the cached products of PrepareSVGRequest. -/
structure SVGRequest where
  request : RenderRequest
  geoJSON : Option FeatureCollection
  ViewBoxWidth : ℚ
  ViewBoxHeight : ℚ
  breaks : List BreakInfo
  referencePos : ℚ
  VerticalLegendWidth : ℚ
  verticalKeyOffset : ℚ
  responsiveSize : Bool
deriving DecidableEq, Repr

/-- PrepareSVGRequest models svg.go PrepareSVGRequest (lines 67-96); `none`
when getSortedBreakInfo panics (it is invoked whenever the choropleth is
non-nil with at least one break). -/
def PrepareSVGRequest (request : RenderRequest) : Option SVGRequest :=
  let geoJSON := getGeoJSON request
  let dims := match geoJSON with
    | none => ((0 : ℚ), (0 : ℚ))
    | some _ => getViewBoxDimensions request
  let responsiveSize := decide (0 < request.MinWidth) && decide (0 < request.MaxWidth)
  match request.Choropleth with
  | none => some ⟨request, geoJSON, dims.1, dims.2, [], 0, 0, 0, responsiveSize⟩
  | some choropleth =>
    if 0 < choropleth.Breaks.length then
      match getSortedBreakInfo request with
      | none => none
      | some (breaks, referencePos) =>
        let vlw := getVerticalLegendWidth request choropleth breaks
        some ⟨request, geoJSON, dims.1, dims.2, breaks, referencePos, vlw.1, vlw.2,
          responsiveSize⟩
    else some ⟨request, geoJSON, dims.1, dims.2, [], 0, 0, 0, responsiveSize⟩

/-- horizontalRefTextInfo models the svg.go struct of the same name (lines
587-593). -/
structure horizontalRefTextInfo where
  referenceTextShort : String
  referenceTextShortLen : ℚ
  referenceTextLong : String
  referenceTextLongLen : ℚ
deriving DecidableEq, Repr

/-- getHorizontalRefTextInfo models svg.go getHorizontalRefTextInfo (lines
595-613): the reference label text and the formatted reference value, divided
into the longer and the shorter by approximate width (ties make the formatted
value the long one); the non-nil request.Choropleth is passed explicitly. -/
def getHorizontalRefTextInfo (request : RenderRequest) (choropleth : Choropleth) :
    horizontalRefTextInfo :=
  let refTextLen := GetApproximateTextWidth choropleth.ReferenceValueText request.FontSize
  let refValue := formatG choropleth.ReferenceValue
  let refValueLen := GetApproximateTextWidth refValue request.FontSize
  if refValueLen < refTextLen then
    ⟨refValue, refValueLen, choropleth.ReferenceValueText, refTextLen⟩
  else
    ⟨choropleth.ReferenceValueText, refTextLen, refValue, refValueLen⟩

/-- horizontalKeyInfo models the svg.go struct of the same name (lines
533-541). -/
structure horizontalKeyInfo where
  referenceTextLeft : String
  referenceTextLeftLen : ℚ
  referenceTextRight : String
  referenceTextRightLen : ℚ
  keyWidth : ℚ
  keyX : ℚ
deriving DecidableEq, Repr

/-- getHorizontalKeyInfo models svg.go getHorizontalKeyInfo (lines 543-585):
default key width 90% of the svg width, centred; the longer reference text put
on the side of the tick with more room; the extents `left` and `right` widened
when the reference text reaches past the key; and the key narrowed and
repositioned when the widened span exceeds the svg width.  Go panics modelled
as `none`: a nil choropleth (dereferenced in getHorizontalRefTextInfo) and
empty cached breaks (index out of range at breaks[0], line 556). -/
def getHorizontalKeyInfo (svgWidth : ℚ) (svgRequest : SVGRequest) :
    Option horizontalKeyInfo :=
  match svgRequest.request.Choropleth with
  | none => none
  | some choropleth =>
    match svgRequest.breaks with
    | [] => none
    | b0 :: brest =>
      let request := svgRequest.request
      let refInfo := getHorizontalRefTextInfo request choropleth
      let keyWidth0 := svgWidth * (9 / 10)
      let keyX0 := (svgWidth - keyWidth0) / 2
      let lastBreak := List.getLast (b0 :: brest) (by simp)
      let left0 := GetApproximateTextWidth (formatG b0.LowerBound) request.FontSize / 2
      let right0 := GetApproximateTextWidth (formatG lastBreak.UpperBound) request.FontSize / 2
      let leftText := if svgRequest.referencePos < 1 / 2 then refInfo.referenceTextShort
        else refInfo.referenceTextLong
      let leftLen := if svgRequest.referencePos < 1 / 2 then refInfo.referenceTextShortLen
        else refInfo.referenceTextLongLen
      let rightText := if svgRequest.referencePos < 1 / 2 then refInfo.referenceTextLong
        else refInfo.referenceTextShort
      let rightLen := if svgRequest.referencePos < 1 / 2 then refInfo.referenceTextLongLen
        else refInfo.referenceTextShortLen
      let refPos := keyWidth0 * svgRequest.referencePos
      let left1 := if refPos - leftLen < 0 - left0 then |refPos - leftLen| else left0
      let right1 := if right0 < refPos + rightLen - keyWidth0 then refPos + rightLen - keyWidth0
        else right0
      let keyWidth1 := if svgWidth < keyWidth0 + left1 + right1 then svgWidth - (left1 + right1)
        else keyWidth0
      let keyX1 := if svgWidth < keyWidth0 + left1 + right1 then left1 else keyX0
      some ⟨leftText, leftLen, rightText, rightLen, keyWidth1, keyX1⟩

/-- refTickTextLenLeft models the textLength clipping of the left reference
text in writeHorizontalKeyRefTick (svg.go lines 461-465): when the text is
wider than the room to the left of the tick it is squeezed to that room minus
one. -/
def refTickTextLenLeft (keyInfo : horizontalKeyInfo) (svgRequest : SVGRequest) : ℚ :=
  let xPos := keyInfo.keyWidth * svgRequest.referencePos
  if xPos + keyInfo.keyX < keyInfo.referenceTextLeftLen then xPos + keyInfo.keyX - 1
  else keyInfo.referenceTextLeftLen

/-- refTickTextLenRight models the textLength clipping of the right reference
text in writeHorizontalKeyRefTick (svg.go lines 466-469). -/
def refTickTextLenRight (keyInfo : horizontalKeyInfo) (svgRequest : SVGRequest)
    (svgWidth : ℚ) : ℚ :=
  let xPos := keyInfo.keyWidth * svgRequest.referencePos
  if svgWidth - (xPos + keyInfo.keyX) < keyInfo.referenceTextRightLen then
    svgWidth - (xPos + keyInfo.keyX) - 2
  else keyInfo.referenceTextRightLen

/-- refTickLeftEdge is the leftmost x coordinate reached by the (possibly
clipped) left reference text: the tick's absolute position minus the effective
text length (the text is end-anchored at the tick, svg.go line 465). -/
def refTickLeftEdge (keyInfo : horizontalKeyInfo) (svgRequest : SVGRequest) : ℚ :=
  keyInfo.keyX + keyInfo.keyWidth * svgRequest.referencePos -
    refTickTextLenLeft keyInfo svgRequest

/-- refTickRightEdge is the rightmost x coordinate reached by the (possibly
clipped) right reference text (start-anchored at the tick, svg.go line 470). -/
def refTickRightEdge (keyInfo : horizontalKeyInfo) (svgRequest : SVGRequest)
    (svgWidth : ℚ) : ℚ :=
  keyInfo.keyX + keyInfo.keyWidth * svgRequest.referencePos +
    refTickTextLenRight keyInfo svgRequest svgWidth

/-- hasVerticalLegend models svg.go hasVerticalLegend (lines 385-389). -/
def hasVerticalLegend (request : RenderRequest) : Bool :=
  match request.Choropleth with
  | some choropleth =>
    decide (choropleth.VerticalLegendPosition = LegendPositionBefore) ||
      decide (choropleth.VerticalLegendPosition = LegendPositionAfter)
  | none => false

/-- hasHorizontalLegend models svg.go hasHorizontalLegend (lines 392-396). -/
def hasHorizontalLegend (request : RenderRequest) : Bool :=
  match request.Choropleth with
  | some choropleth =>
    decide (choropleth.HorizontalLegendPosition = LegendPositionBefore) ||
      decide (choropleth.HorizontalLegendPosition = LegendPositionAfter)
  | none => false

/-- getKeyClass models svg.go getKeyClass (lines 376-382). -/
def getKeyClass (request : RenderRequest) (keyType : String) : String :=
  let keyClass := "map_key_" ++ keyType
  if hasVerticalLegend request && hasHorizontalLegend request then
    keyClass ++ " " ++ keyClass ++ "_both"
  else keyClass

/-- mapSizeAttributes pairs the map svg's viewbox dimensions with the
width/height attributes it emits: the attributes are omitted in responsive
mode.  The viewBox attribute comes from svg.go line 125; the width/height
behaviour of the external geojson2svg WithResponsiveSize option (not under
src/) is modelled from the spec's responsive-mode description. -/
def mapSizeAttributes (svgRequest : SVGRequest) : (ℚ × ℚ) × Option (ℚ × ℚ) :=
  ((svgRequest.ViewBoxWidth, svgRequest.ViewBoxHeight),
   if svgRequest.responsiveSize then none
   else some (svgRequest.ViewBoxWidth, svgRequest.ViewBoxHeight))

/-- horizontalKeySizeAttributes models svg.go lines 273-277: the horizontal
key svg's viewbox is (ViewBoxWidth, 90) and the width/height attributes, equal
to the viewbox, are appended only when the size is not responsive. -/
def horizontalKeySizeAttributes (svgRequest : SVGRequest) : (ℚ × ℚ) × Option (ℚ × ℚ) :=
  ((svgRequest.ViewBoxWidth, 90),
   if svgRequest.responsiveSize then none else some (svgRequest.ViewBoxWidth, 90))

/-- verticalKeySizeAttributes models svg.go lines 333-337: the vertical key
svg's viewbox is (VerticalLegendWidth, ViewBoxHeight) and the width/height
attributes, equal to the viewbox, are appended only when the size is not
responsive. -/
def verticalKeySizeAttributes (svgRequest : SVGRequest) : (ℚ × ℚ) × Option (ℚ × ℚ) :=
  ((svgRequest.VerticalLegendWidth, svgRequest.ViewBoxHeight),
   if svgRequest.responsiveSize then none
   else some (svgRequest.VerticalLegendWidth, svgRequest.ViewBoxHeight))

/-- sizeAttrString renders the optional width/height attribute pair. -/
def sizeAttrString (attrs : (ℚ × ℚ) × Option (ℚ × ℚ)) : String :=
  match attrs.2 with
  | none => ""
  | some wh => " width=\"" ++ fmtF wh.1 ++ "\" height=\"" ++ fmtF wh.2 ++ "\""

/-- Modelled from the spec: the external SVG composition step
(geojson2svg.SVG.DrawWithProjection, not under src/) emits the map markup for
the projected, styled features; only its id/viewBox/size attributes (svg.go
lines 121-129) matter to the claims. -/
def drawWithProjection (svgRequest : SVGRequest) (features : List Feature) : String :=
  let attrs := "id=\"" ++ idPfx svgRequest.request ++ "-map-svg\" viewBox=\"0 0 " ++
    fmtF svgRequest.ViewBoxWidth ++ " " ++ fmtF svgRequest.ViewBoxHeight ++ "\"" ++
    sizeAttrString (mapSizeAttributes svgRequest)
  "<svg " ++ attrs ++ ">" ++
    String.join (features.map (fun f => "<path id=\"" ++ f.ID ++ "\"></path>")) ++ "</svg>"

/-- RenderSVG models svg.go RenderSVG (lines 98-130): the empty string when
the decoded geojson is nil; otherwise ids, classes, colours and titles are
applied and the markup composed.  `none` models the Go panics reachable from
the body (a nil geography dereference, and the getColour index-out-of-range
panic inside setChoroplethColoursAndTitles when the choropleth has no breaks
but the data slice is non-empty). -/
def RenderSVG (svgRequest : SVGRequest) : Option String :=
  match svgRequest.geoJSON with
  | none => some ""
  | some geoJSON =>
    let request := svgRequest.request
    match request.Geography with
    | none => none
    | some geo =>
      let id := idPfx request
      let features1 := setFeatureIDs geoJSON.features geo.IDProperty (id ++ "-")
      let features2 := setClassProperty features1 RegionClassName
      match setChoroplethColoursAndTitles features2 request with
      | none => none
      | some features3 => some (drawWithProjection svgRequest features3)

/-- writeHorizontalKeyTickStr models writeHorizontalKeyTick (svg.go lines
440-445) as the markup of one labelled tick. -/
def writeHorizontalKeyTickStr (xPos v : ℚ) : String :=
  "<g class=\"map__tick\" transform=\"translate(" ++ fmtF xPos ++
    ", 0)\"><line x2=\"0\" y2=\"15\"></line><text x=\"0\" y=\"18\">" ++ formatG v ++
    "</text></g>"

/-- horizontalRects is the rectangle-and-tick loop of RenderHorizontalKey
(svg.go lines 283-290): each class gets a rectangle of width
RelativeSize * keyWidth and a tick at its left edge; returns the markup parts
and the final left position. -/
def horizontalRects : List BreakInfo → ℚ → ℚ → String × String × ℚ
  | [], _, left => ("", "", left)
  | b :: rest, keyWidth, left =>
    let w := b.RelativeSize * keyWidth
    let tail := horizontalRects rest keyWidth (left + w)
    ("<rect class=\"keyColour\" height=\"8\" width=\"" ++ fmtF w ++ "\" x=\"" ++
        fmtF left ++ "\" style=\"fill: " ++ b.Colour ++ ";\"></rect>" ++ tail.1,
     writeHorizontalKeyTickStr left b.LowerBound ++ tail.2.1,
     tail.2.2)

/-- writeHorizontalKeyRefTickStr models writeHorizontalKeyRefTick (svg.go
lines 455-472): the reference tick at keyWidth * referencePos with the left
and right reference texts, clipped via textLength when they would not fit. -/
def writeHorizontalKeyRefTickStr (keyInfo : horizontalKeyInfo)
    (svgRequest : SVGRequest) : String :=
  let xPos := keyInfo.keyWidth * svgRequest.referencePos
  "<g class=\"map__tick\" transform=\"translate(" ++ fmtF xPos ++
    ", 0)\"><line x2=\"0\" y1=\"8\" y2=\"45\"></line><text textLength=\"" ++
    fmtF (refTickTextLenLeft keyInfo svgRequest) ++ "\">" ++
    keyInfo.referenceTextLeft ++ "</text><text textLength=\"" ++
    fmtF (refTickTextLenRight keyInfo svgRequest svgRequest.ViewBoxWidth) ++ "\">" ++
    keyInfo.referenceTextRight ++ "</text></g>"

/-- RenderHorizontalKey models svg.go RenderHorizontalKey (lines 252-305): the
empty string when the decoded geojson is nil; otherwise the horizontal legend
markup.  `none` models the Go panics in the body: a nil choropleth
(dereferenced by getHorizontalKeyInfo and at line 280) and empty cached breaks
(breaks[0] in getHorizontalKeyInfo; breaks[len-1] at line 291). -/
def RenderHorizontalKey (svgRequest : SVGRequest) : Option String :=
  match svgRequest.geoJSON with
  | none => some ""
  | some _ =>
    let request := svgRequest.request
    match request.Choropleth, getHorizontalKeyInfo svgRequest.ViewBoxWidth svgRequest,
        svgRequest.breaks.getLast? with
    | some choropleth, some keyInfo, some lastBreak =>
      let id := idPfx request
      let svgAttributes := "id=\"" ++ id ++ "-legend-horizontal-svg\" class=\"" ++
        getKeyClass request "horizontal" ++ "\" viewBox=\"0 0 " ++
        fmtF svgRequest.ViewBoxWidth ++ " " ++ fmtF (90 : ℚ) ++ "\"" ++
        sizeAttrString (horizontalKeySizeAttributes svgRequest)
      let parts := horizontalRects svgRequest.breaks keyInfo.keyWidth 0
      let ticks0 := parts.2.1 ++ writeHorizontalKeyTickStr parts.2.2 lastBreak.UpperBound
      let ticks1 := if 0 < choropleth.ReferenceValueText.length then
          ticks0 ++ writeHorizontalKeyRefTickStr keyInfo svgRequest
        else ticks0
      some ("<svg " ++ svgAttributes ++ ">" ++ parts.1 ++ ticks1 ++ "</svg>")
    | _, _, _ => none

/-- verticalRects is the segment-and-tick loop of RenderVerticalKey (svg.go
lines 342-350): class segments stack from the bottom of the key upward. -/
def verticalRects : List BreakInfo → ℚ → ℚ → String × String × ℚ
  | [], _, position => ("", "", position)
  | b :: rest, keyHeight, position =>
    let h := b.RelativeSize * keyHeight
    let adjustedPosition := keyHeight - position
    let tail := verticalRects rest keyHeight (position + h)
    ("<rect class=\"keyColour\" height=\"" ++ fmtF h ++ "\" width=\"8\" y=\"" ++
        fmtF (adjustedPosition - h) ++ "\" style=\"fill: " ++ b.Colour ++ ";\"></rect>" ++
        tail.1,
     "<g class=\"map__tick\" transform=\"translate(0, " ++ fmtF adjustedPosition ++
        ")\"><text>" ++ formatG b.LowerBound ++ "</text></g>" ++ tail.2.1,
     tail.2.2)

/-- RenderVerticalKey models svg.go RenderVerticalKey (lines 307-367): the
empty string when the decoded geojson is nil; otherwise the vertical legend
markup.  `none` models the Go panics in the body: a nil choropleth
(dereferenced at line 340) and empty cached breaks (breaks[len-1] at line
351). -/
def RenderVerticalKey (svgRequest : SVGRequest) : Option String :=
  match svgRequest.geoJSON with
  | none => some ""
  | some _ =>
    let request := svgRequest.request
    match request.Choropleth, svgRequest.breaks.getLast? with
    | some choropleth, some lastBreak =>
      let svgHeight := svgRequest.ViewBoxHeight
      let keyHeight := svgHeight * (8 / 10)
      let id := idPfx request
      let attributes := "id=\"" ++ id ++ "-legend-vertical-svg\" class=\"" ++
        getKeyClass request "vertical" ++ "\" viewBox=\"0 0 " ++
        fmtF svgRequest.VerticalLegendWidth ++ " " ++ fmtF svgHeight ++ "\"" ++
        sizeAttrString (verticalKeySizeAttributes svgRequest)
      let parts := verticalRects svgRequest.breaks keyHeight 0
      let ticks0 := parts.2.1 ++ "<g class=\"map__tick\" transform=\"translate(0, " ++
        fmtF (keyHeight - parts.2.2) ++ ")\"><text>" ++ formatG lastBreak.UpperBound ++
        "</text></g>"
      let ticks1 := if 0 < choropleth.ReferenceValueText.length then
          ticks0 ++ "<g class=\"map__tick\" transform=\"translate(0, " ++
            fmtF (keyHeight - keyHeight * svgRequest.referencePos) ++ ")\"><text>" ++
            choropleth.ReferenceValueText ++ "</text><text>" ++
            formatG choropleth.ReferenceValue ++ "</text></g>"
        else ticks0
      some ("<svg " ++ attributes ++ ">" ++ parts.1 ++ ticks1 ++ "</svg>")
    | _, _ => none

/-- viewBoxWidthPolicySpec states the claimed width policy in the spec's own
words, for comparison with getViewBoxDimensions: the explicit fixed width if
positive, otherwise the average of min and max width if BOTH are positive,
otherwise 400. -/
def viewBoxWidthPolicySpec (request : RenderRequest) : ℚ :=
  if 0 < request.DefaultWidth then request.DefaultWidth
  else if 0 < request.MinWidth ∧ 0 < request.MaxWidth then
    (request.MinWidth + request.MaxWidth) / 2
  else 400

/-- viewBoxWidthPolicyAmended states the width policy the code implements: the
explicit fixed width if positive, otherwise the average of min and max width
if THE AVERAGE is positive, otherwise 400. -/
def viewBoxWidthPolicyAmended (request : RenderRequest) : ℚ :=
  if 0 < request.DefaultWidth then request.DefaultWidth
  else if 0 < (request.MinWidth + request.MaxWidth) / 2 then
    (request.MinWidth + request.MaxWidth) / 2
  else 400

/-- geoSimple is a minimal valid geography: one arc and one object, so
getGeoJSON succeeds on it. -/
def geoSimple : Geography :=
  ⟨some ⟨[[(0, 0)]], [⟨"a", [("name", "Region A"), ("id", "a")]⟩]⟩, "id", "name"⟩

/-- refText40 is a 40-character reference label (approximate width 280 at font
size 14 under the modelled text metric). -/
def refText40 : String := "aaaaaaaaaaaaaaaaaaaaaaaaaaaaaaaaaaaaaaaa"

/-- chTwoBreaks is a choropleth with two strictly increasing breaks, an upper
bound of 20, a reference value of 10 and a long reference label. -/
def chTwoBreaks : Choropleth :=
  ⟨10, refText40, "", "", [⟨0, "red"⟩, ⟨10, "blue"⟩], 20, "none", "none"⟩

/-- reqTwoBreaks is a render request with valid geography, two data rows
spanning 0..20 and chTwoBreaks; its reference position is 1/2 and its viewbox
width 400. -/
def reqTwoBreaks : RenderRequest :=
  ⟨"f", some geoSimple, some [⟨"a", 0⟩, ⟨"b", 20⟩], some chTwoBreaks, 400, 0, 0, false, 14⟩

/-- reqOneBreak is a render request with exactly one break: valid per the data
model, but getSortedBreakInfo nil-panics on it. -/
def reqOneBreak : RenderRequest :=
  ⟨"m", some geoSimple, some [⟨"a", 1⟩],
    some ⟨0, "", "", "", [⟨0, "red"⟩], 2, "none", "none"⟩, 400, 0, 0, false, 14⟩

/-- reqAvgWidth is a render request with no explicit width, MinWidth 0 and
MaxWidth 100: the code averages to 50, the spec's policy says 400. -/
def reqAvgWidth : RenderRequest := ⟨"m", none, none, none, 0, 0, 100, false, 14⟩

/-- reqEmptyBreaks is a render request with valid geography, a non-nil
choropleth carrying zero breaks, and one data row. -/
def reqEmptyBreaks : RenderRequest :=
  ⟨"m", some geoSimple, some [⟨"a", 1⟩],
    some ⟨0, "", "", "", [], 0, "none", "none"⟩, 400, 0, 0, false, 14⟩

/-- reqNoGeo is a render request with no geography at all. -/
def reqNoGeo : RenderRequest := ⟨"m", none, none, none, 0, 0, 0, false, 14⟩

/-- reqResponsive is a render request with both a min and a max width. -/
def reqResponsive : RenderRequest := ⟨"m", none, none, none, 0, 1, 2, false, 14⟩

/-- reqBreaksNoData is a render request with a break configured but a nil data
slice. -/
def reqBreaksNoData : RenderRequest :=
  ⟨"m", none, none, some ⟨0, "", "", "", [⟨0, "red"⟩], 0, "none", "none"⟩,
    0, 0, 0, false, 14⟩

/-- reqColoured is a render request whose single data row matches the feature
id map-f-a after prefixing. -/
def reqColoured : RenderRequest :=
  ⟨"f", some geoSimple, some [⟨"a", 5⟩],
    some ⟨0, "", "", "%", [⟨0, "red"⟩], 10, "none", "none"⟩, 0, 0, 0, false, 14⟩

/-- featuresColoured are two prefixed features: one with a matching data row
and a name property, one with neither. -/
def featuresColoured : List Feature :=
  [⟨"map-f-a", [("name", "Region A")]⟩, ⟨"map-f-b", []⟩]

/-- srTwoBreaks is the SVGRequest PrepareSVGRequest builds for reqTwoBreaks,
with the geojson omitted (getHorizontalKeyInfo never reads it). -/
def srTwoBreaks : SVGRequest :=
  ⟨reqTwoBreaks, none, 400, 300, [⟨0, 10, 1/2, "red"⟩, ⟨10, 20, 1/2, "blue"⟩],
    1/2, 0, 0, false⟩

/-- kiTwoBreaks is the horizontalKeyInfo computed for srTwoBreaks: the long
reference text (width 280) forced the key to narrow from 360 to 293 and move
to x = 100. -/
def kiTwoBreaks : horizontalKeyInfo := ⟨refText40, 280, "10", 14, 293, 100⟩

/-- colouredFeatureSpec relates an input feature of
setChoroplethColoursAndTitles to its output: a feature with no matching data
row gets the missing-data pattern fill and a title ending in MissingDataText;
a feature whose (prefixed) id matches a data row gets the getColour fill for
that row's value and a title carrying the value between the configured prefix
and suffix. -/
def colouredFeatureSpec (request : RenderRequest) (choropleth : Choropleth)
    (data : List DataRow) (geo : Geography) (f f' : Feature) : Prop :=
  (matchingRow data (idPfx request ++ "-") f.ID = none →
    f' = appendProperty
      (setFeatureProp f geo.NameProperty
        ((getProp f geo.NameProperty).getD "" ++ " " ++ MissingDataText))
      "style" ("fill: url(#" ++ idPfx request ++ "-nodata);")) ∧
  (∀ row, matchingRow data (idPfx request ++ "-") f.ID = some row →
    ∃ c, getColour row.Value (sortBreaks choropleth.Breaks false) = some c ∧
      f' = appendProperty
        (setFeatureProp f geo.NameProperty
          ((getProp f geo.NameProperty).getD "" ++ " " ++ choropleth.ValuePfx ++
            formatG row.Value ++ choropleth.ValueSuffix))
        "style" ("fill: " ++ c ++ ";"))

/-- getColour on a cons whose head qualifies returns the head's colour. -/
theorem getColour_cons_of_le {b : ChoroplethBreak} {rest : List ChoroplethBreak} {v : ℚ}
    (h : b.LowerBound ≤ v) : getColour v (b :: rest) = some b.Colour := by
  simp only [getColour]
  rw [List.find?_cons_of_pos _ (by simpa using h)]

/-- getColour on a cons whose head does not qualify scans the (non-empty)
tail. -/
theorem getColour_cons_of_lt {b : ChoroplethBreak} {rest : List ChoroplethBreak} {v : ℚ}
    (h : ¬b.LowerBound ≤ v) (hne : rest ≠ []) :
    getColour v (b :: rest) = getColour v rest := by
  simp only [getColour]
  rw [List.find?_cons_of_neg _ (by simpa using h)]
  cases rest with
  | nil => exact absurd rfl hne
  | cons c cs =>
    cases hfind : (c :: cs).find? (fun x => decide (x.LowerBound ≤ v)) with
    | some x => simp [hfind]
    | none => simp [hfind, List.getLast?_cons_cons]

/-- When the value is below every lower bound, getColour falls through to the
last break's colour. -/
theorem getColour_of_forall_lt {breaks : List ChoroplethBreak} {v : ℚ} (hne : breaks ≠ [])
    (h : ∀ b ∈ breaks, v < b.LowerBound) :
    getColour v breaks = some ((breaks.getLast hne).Colour) := by
  have hfind : breaks.find? (fun b => decide (b.LowerBound ≤ v)) = none := by
    apply List.find?_eq_none.mpr
    intro b hb
    simpa using not_le.mpr (h b hb)
  simp [getColour, hfind, List.getLast?_eq_getLast _ hne]

/-- In a strictly descending break list the last break has the minimal lower
bound. -/
theorem getLast_lowerBound_min {breaks : List ChoroplethBreak} (hne : breaks ≠ [])
    (hsort : breaks.Pairwise (fun a b => b.LowerBound < a.LowerBound)) :
    ∀ b ∈ breaks, (breaks.getLast hne).LowerBound ≤ b.LowerBound := by
  induction breaks with
  | nil => exact absurd rfl hne
  | cons a rest ih =>
    intro b hb
    cases rest with
    | nil =>
      rcases List.mem_singleton.mp hb with rfl
      exact le_refl _
    | cons c cs =>
      rw [List.getLast_cons (by simp)]
      rcases List.mem_cons.mp hb with rfl | hbrest
      · have hmem := List.getLast_mem (l := c :: cs) (by simp)
        have hlt := (List.pairwise_cons.mp hsort).1 _ hmem
        exact le_of_lt hlt
      · exact ih (by simp) (List.pairwise_cons.mp hsort).2 b hbrest

/-- In a strictly descending break list, the qualifying break with the
greatest lower bound is the one getColour returns. -/
theorem getColour_of_max_qualifying {breaks : List ChoroplethBreak} {v : ℚ}
    {b : ChoroplethBreak}
    (hsort : breaks.Pairwise (fun a c => c.LowerBound < a.LowerBound))
    (hb : b ∈ breaks) (hbv : b.LowerBound ≤ v)
    (hmax : ∀ c ∈ breaks, c.LowerBound ≤ v → c.LowerBound ≤ b.LowerBound) :
    getColour v breaks = some b.Colour := by
  induction breaks with
  | nil => cases hb
  | cons a rest ih =>
    by_cases ha : a.LowerBound ≤ v
    · rw [getColour_cons_of_le ha]
      rcases List.mem_cons.mp hb with rfl | hbrest
      · rfl
      · have h1 := (List.pairwise_cons.mp hsort).1 b hbrest
        have h2 := hmax a (List.mem_cons_self a rest) ha
        exact absurd (lt_of_le_of_lt h2 h1) (lt_irrefl _)
    · have hbrest : b ∈ rest := by
        rcases List.mem_cons.mp hb with rfl | h
        · exact absurd hbv ha
        · exact h
      have hrne : rest ≠ [] := List.ne_nil_of_mem hbrest
      rw [getColour_cons_of_lt ha hrne]
      exact ih (List.pairwise_cons.mp hsort).2 hbrest
        (fun c hc hcv => hmax c (List.mem_cons_of_mem a hc) hcv)

/-- C1: for every non-empty break list sorted descending by lower bound,
getColour returns the colour of the first break (scanning from the highest
lower bound down) whose lower bound is ≤ the value — equivalently, of the
qualifying break with the greatest lower bound; when the value is below every
lower bound it returns the colour of the last break, which carries the lowest
lower bound; and a value exactly equal to a lower bound is assigned that
break's colour. -/
theorem getColour_descending_scan (breaks : List ChoroplethBreak) (v : ℚ)
    (hne : breaks ≠ [])
    (hsort : breaks.Pairwise (fun a b => b.LowerBound < a.LowerBound)) :
    ((∀ b ∈ breaks, v < b.LowerBound) →
      getColour v breaks = some ((breaks.getLast hne).Colour) ∧
      ∀ b ∈ breaks, (breaks.getLast hne).LowerBound ≤ b.LowerBound) ∧
    (∀ b ∈ breaks, b.LowerBound ≤ v →
      (∀ c ∈ breaks, c.LowerBound ≤ v → c.LowerBound ≤ b.LowerBound) →
      getColour v breaks = some b.Colour) ∧
    (∀ b ∈ breaks, b.LowerBound = v → getColour v breaks = some b.Colour) := by
  refine ⟨fun h => ⟨getColour_of_forall_lt hne h, getLast_lowerBound_min hne hsort⟩,
    fun b hb hbv hmax => getColour_of_max_qualifying hsort hb hbv hmax,
    fun b hb hbv => getColour_of_max_qualifying hsort hb (le_of_eq hbv) ?_⟩
  intro c hc hcv
  rw [hbv]
  exact hcv

/-- Witness for C1 at the descending breaks [10 ↦ red, 5 ↦ blue] and the value
5: the value sits exactly on the lower bound 5 and receives blue. -/
theorem getColour_descending_scan_witness :
    getColour 5 [⟨10, "red"⟩, ⟨5, "blue"⟩] = some "blue" :=
  (getColour_descending_scan [⟨10, "red"⟩, ⟨5, "blue"⟩] 5 (by simp)
    (by simp [List.pairwise_cons]; norm_num)).2.2 ⟨5, "blue"⟩ (by simp) rfl

/-- The class spans built by breakInfoChain telescope: their widths sum to the
whole range from the overridden first lower bound to the maximum value. -/
theorem breakInfoChain_telescope (maxValue : ℚ) :
    ∀ (breaks : List ChoroplethBreak) (lb : ℚ), breaks ≠ [] →
      (((breakInfoChain lb breaks maxValue).map
        (fun b => b.UpperBound - b.LowerBound)).sum) = maxValue - lb := by
  intro breaks
  induction breaks with
  | nil => intro lb h; exact absurd rfl h
  | cons b rest ih =>
    intro lb _
    cases rest with
    | nil => simp [breakInfoChain]
    | cons c cs =>
      simp only [breakInfoChain, List.map_cons, List.sum_cons]
      rw [ih c.LowerBound (by simp)]
      ring

/-- Filling RelativeSize with span/range over a breakInfoChain makes the sizes
sum to exactly 1 whenever the range is nonzero. -/
theorem chain_sizes_sum (lb maxValue : ℚ) (breaks : List ChoroplethBreak)
    (hne : breaks ≠ []) (h : maxValue - lb ≠ 0) :
    (((breakInfoChain lb breaks maxValue).map
        (fun b => { b with RelativeSize := (b.UpperBound - b.LowerBound) / (maxValue - lb) })).map
      BreakInfo.RelativeSize).sum = 1 := by
  rw [List.map_map]
  have hcomp : (BreakInfo.RelativeSize ∘ fun b : BreakInfo =>
      { b with RelativeSize := (b.UpperBound - b.LowerBound) / (maxValue - lb) }) =
      fun b : BreakInfo => (b.UpperBound - b.LowerBound) * (maxValue - lb)⁻¹ := by
    funext b
    simp [div_eq_mul_inv]
  rw [hcomp, List.sum_map_mul_right, breakInfoChain_telescope maxValue breaks lb hne,
    mul_inv_cancel₀ h]

/-- C2 counterexample: reqOneBreak has one data row and one break (strictly
increasing trivially), yet getSortedBreakInfo produces no breakInfo slice at
all — Go dereferences the nil pointer info[0] (svg.go line 524) before
info[breakCount-1] is allocated (line 525) — so no RelativeSize sum of 1
exists. -/
theorem getSortedBreakInfo_single_break_panics :
    ¬∃ info referencePos, getSortedBreakInfo reqOneBreak = some (info, referencePos) := by
  intro h
  obtain ⟨info, referencePos, h⟩ := h
  rw [show getSortedBreakInfo reqOneBreak = none from rfl] at h
  exact Option.noConfusion h

/-- C2 (amended): whenever getSortedBreakInfo succeeds (at least one data row
and at least two breaks; exactly one break nil-panics) and the total range
maxValue - minValue is nonzero, the RelativeSize fields of the produced
breakInfo slice sum to exactly 1. -/
theorem relativeSizes_sum_one (request : RenderRequest) (choropleth : Choropleth)
    (info : List BreakInfo) (referencePos : ℚ)
    (hch : request.Choropleth = some choropleth)
    (hres : getSortedBreakInfo request = some (info, referencePos))
    (hrange : svgMaxValue request choropleth ≠ svgMinValue request choropleth) :
    (info.map BreakInfo.RelativeSize).sum = 1 := by
  simp only [getSortedBreakInfo, hch] at hres
  rcases hd : svgSortedData request with _ | ⟨d0, ds⟩
  · simp only [hd] at hres
    exact Option.noConfusion hres
  · rcases hb : sortBreaks choropleth.Breaks true with _ | ⟨b0, bs⟩
    · simp only [hd, hb] at hres
      exact Option.noConfusion hres
    · rcases bs with _ | ⟨b1, bs2⟩
      · simp only [hd, hb] at hres
        exact Option.noConfusion hres
      · simp only [hd, hb, Option.some.injEq, Prod.mk.injEq] at hres
        obtain ⟨hinfo, -⟩ := hres
        rw [← hinfo]
        exact chain_sizes_sum _ _ _ (by simp) (sub_ne_zero.mpr hrange)

/-- Witness for C2 (amended) at reqTwoBreaks: the two computed relative sizes
are 1/2 and 1/2 and sum to 1. -/
theorem relativeSizes_sum_one_witness :
    (([⟨0, 10, 1/2, "red"⟩, ⟨10, 20, 1/2, "blue"⟩] : List BreakInfo).map
      BreakInfo.RelativeSize).sum = 1 :=
  relativeSizes_sum_one reqTwoBreaks chTwoBreaks
    [⟨0, 10, 1/2, "red"⟩, ⟨10, 20, 1/2, "blue"⟩] (1/2) rfl
    (by with_unfolding_all rfl) (by with_unfolding_all decide)

/-- C3 counterexample: with no explicit width, MinWidth 0 and MaxWidth 100,
getViewBoxDimensions picks the average 50 (it tests the average for
positivity), while the claimed policy — average only when BOTH min and max are
positive, else the default — yields 400. -/
theorem viewBoxWidth_policy_counterexample :
    (getViewBoxDimensions reqAvgWidth).1 ≠ viewBoxWidthPolicySpec reqAvgWidth := by
  with_unfolding_all decide

/-- C3 (amended): the width chosen by getViewBoxDimensions is the explicit
fixed width if positive; otherwise the average of the min and max widths if
THE AVERAGE is positive; otherwise 400. -/
theorem viewBoxWidth_policy_amended (request : RenderRequest) :
    (getViewBoxDimensions request).1 = viewBoxWidthPolicyAmended request := by
  simp only [getViewBoxDimensions, viewBoxWidthPolicyAmended]
  split_ifs <;> first | rfl | linarith

/-- C5: the spec says a non-nil choropleth with zero breaks degrades
gracefully, but with one data row PrepareSVGRequest succeeds and RenderSVG
then panics — getColour falls through its loop and indexes breaks[len-1] on
the empty slice (svg.go line 236) while building the data map. -/
theorem renderSVG_empty_breaks_panics :
    (PrepareSVGRequest reqEmptyBreaks).map RenderSVG = some none := by
  with_unfolding_all rfl

/-- C10: with a non-nil choropleth carrying at least one break and an empty
(or nil) data slice, PrepareSVGRequest always invokes getSortedBreakInfo,
whose unguarded read of data[0] (svg.go line 512) is out of bounds, so request
preparation fails. -/
theorem prepare_requires_data (request : RenderRequest) (choropleth : Choropleth)
    (hch : request.Choropleth = some choropleth)
    (hbreaks : choropleth.Breaks ≠ [])
    (hdata : request.Data.getD [] = []) :
    PrepareSVGRequest request = none := by
  have hsorted : getSortedBreakInfo request = none := by
    have hempty : svgSortedData request = [] := by
      simp [svgSortedData, hdata, sortDataByValue]
    simp [getSortedBreakInfo, hch, hempty]
  have hlen : 0 < choropleth.Breaks.length := List.length_pos.mpr hbreaks
  simp [PrepareSVGRequest, hch, hsorted, hlen]

/-- Witness for C10: a request with one break and a nil data slice fails to
prepare. -/
theorem prepare_requires_data_witness : PrepareSVGRequest reqBreaksNoData = none :=
  prepare_requires_data reqBreaksNoData ⟨0, "", "", "", [⟨0, "red"⟩], 0, "none", "none"⟩
    rfl (by simp) rfl

/-- PrepareSVGRequest copies the decoded geojson, the responsive flag and the
request itself into the SVGRequest it returns. -/
theorem prepare_fields (request : RenderRequest) (sr : SVGRequest)
    (h : PrepareSVGRequest request = some sr) :
    sr.geoJSON = getGeoJSON request ∧
    sr.responsiveSize = (decide (0 < request.MinWidth) && decide (0 < request.MaxWidth)) ∧
    sr.request = request := by
  simp only [PrepareSVGRequest] at h
  split at h
  · injection h with h'
    subst h'
    exact ⟨rfl, rfl, rfl⟩
  · split at h
    · split at h
      · exact Option.noConfusion h
      · injection h with h'
        subst h'
        exact ⟨rfl, rfl, rfl⟩
    · injection h with h'
      subst h'
      exact ⟨rfl, rfl, rfl⟩

/-- C6: whenever the geography is nil, or its topojson is nil, or the arc
table or object collection is empty, getGeoJSON yields nothing, and each of
RenderSVG, RenderHorizontalKey and RenderVerticalKey on the prepared request
returns the empty string rather than failing. -/
theorem renderers_empty_on_missing_geography (request : RenderRequest)
    (h : request.Geography = none ∨
      ∃ geo, request.Geography = some geo ∧
        (geo.Topojson = none ∨
          ∃ topo, geo.Topojson = some topo ∧ (topo.Arcs = [] ∨ topo.Objects = []))) :
    getGeoJSON request = none ∧
    ∀ sr, PrepareSVGRequest request = some sr →
      RenderSVG sr = some "" ∧ RenderHorizontalKey sr = some "" ∧
      RenderVerticalKey sr = some "" := by
  have hg : getGeoJSON request = none := by
    rcases h with h | ⟨geo, hgeo, h⟩
    · simp [getGeoJSON, h]
    · rcases h with h | ⟨topo, htopo, h⟩
      · simp [getGeoJSON, hgeo, h]
      · rcases h with h | h <;> simp [getGeoJSON, hgeo, htopo, h]
  refine ⟨hg, fun sr hsr => ?_⟩
  have hnone : sr.geoJSON = none := by
    rw [(prepare_fields request sr hsr).1, hg]
  exact ⟨by simp [RenderSVG, hnone], by simp [RenderHorizontalKey, hnone],
    by simp [RenderVerticalKey, hnone]⟩

/-- Witness for C6 at reqNoGeo: all three renderers return the empty
string. -/
theorem renderers_empty_on_missing_geography_witness :
    RenderSVG ⟨reqNoGeo, none, 0, 0, [], 0, 0, 0, false⟩ = some "" ∧
    RenderHorizontalKey ⟨reqNoGeo, none, 0, 0, [], 0, 0, 0, false⟩ = some "" ∧
    RenderVerticalKey ⟨reqNoGeo, none, 0, 0, [], 0, 0, 0, false⟩ = some "" :=
  (renderers_empty_on_missing_geography reqNoGeo (Or.inl rfl)).2 _ rfl

/-- C9: the prepared request is responsive exactly when both MinWidth and
MaxWidth are positive, and then the map svg and both key svgs omit their
width/height attributes; otherwise each emits width/height equal to its
viewbox dimensions. -/
theorem responsive_size_attributes (request : RenderRequest) (sr : SVGRequest)
    (h : PrepareSVGRequest request = some sr) :
    (sr.responsiveSize = true ↔ 0 < request.MinWidth ∧ 0 < request.MaxWidth) ∧
    ((mapSizeAttributes sr).2 = none ↔ 0 < request.MinWidth ∧ 0 < request.MaxWidth) ∧
    ((horizontalKeySizeAttributes sr).2 = none ↔
      0 < request.MinWidth ∧ 0 < request.MaxWidth) ∧
    ((verticalKeySizeAttributes sr).2 = none ↔
      0 < request.MinWidth ∧ 0 < request.MaxWidth) ∧
    (¬(0 < request.MinWidth ∧ 0 < request.MaxWidth) →
      (mapSizeAttributes sr).2 = some (mapSizeAttributes sr).1 ∧
      (horizontalKeySizeAttributes sr).2 = some (horizontalKeySizeAttributes sr).1 ∧
      (verticalKeySizeAttributes sr).2 = some (verticalKeySizeAttributes sr).1) := by
  have hresp := (prepare_fields request sr h).2.1
  have hb : sr.responsiveSize = true ↔ 0 < request.MinWidth ∧ 0 < request.MaxWidth := by
    rw [hresp]
    simp
  rcases Bool.eq_false_or_eq_true sr.responsiveSize with hcase | hcase
  · have hx := hb.mp hcase
    simp [mapSizeAttributes, horizontalKeySizeAttributes, verticalKeySizeAttributes,
      hcase, hx]
  · have hmm : ¬(0 < request.MinWidth ∧ 0 < request.MaxWidth) := by
      intro hx
      have hbad := hb.mpr hx
      rw [hcase] at hbad
      exact Bool.noConfusion hbad
    simp [mapSizeAttributes, horizontalKeySizeAttributes, verticalKeySizeAttributes,
      hcase, hmm]

/-- Witness for C9 at reqResponsive (MinWidth 1, MaxWidth 2): the horizontal
key omits its width/height attributes. -/
theorem responsive_size_attributes_witness :
    (horizontalKeySizeAttributes ⟨reqResponsive, none, 0, 0, [], 0, 0, 0, true⟩).2 = none :=
  ((responsive_size_attributes reqResponsive ⟨reqResponsive, none, 0, 0, [], 0, 0, 0, true⟩
    rfl).2.2.1).mpr (by decide)

/-- C4 counterexample: for reqTwoBreaks (viewbox width 400, reference position
1/2, reference label of width 280) the key is narrowed to 293 and moved to
x = 100, but the reference tick is re-derived from the NARROWED width
(writeHorizontalKeyRefTick, svg.go line 457), so the computed extent of the
left reference text still reaches 33.5 pixels left of 0: the claimed
left_overflow == 0 is false. -/
theorem horizontalKey_overflow_counterexample :
    ((PrepareSVGRequest reqTwoBreaks).bind fun sr =>
      (getHorizontalKeyInfo sr.ViewBoxWidth sr).map fun ki =>
        decide (ki.keyX + ki.keyWidth * sr.referencePos - ki.referenceTextLeftLen < 0)) =
      some true := by
  with_unfolding_all rfl

/-- C4 (amended): the narrowing computation alone does not zero the overflow;
instead the residual reference-text overflow is clipped by the textLength
adjustment in writeHorizontalKeyRefTick, after which the effective extent of
the reference texts always lies within [0, svgWidth]. -/
theorem horizontalKey_clipped_extents (svgWidth : ℚ) (sr : SVGRequest)
    (ki : horizontalKeyInfo)
    (_h : getHorizontalKeyInfo svgWidth sr = some ki) :
    0 ≤ refTickLeftEdge ki sr ∧ refTickRightEdge ki sr svgWidth ≤ svgWidth := by
  constructor
  · unfold refTickLeftEdge refTickTextLenLeft
    dsimp only
    split_ifs with hclip
    · linarith
    · push_neg at hclip
      linarith
  · unfold refTickRightEdge refTickTextLenRight
    dsimp only
    split_ifs with hclip
    · linarith
    · push_neg at hclip
      linarith

/-- Witness for C4 (amended) at srTwoBreaks: the clipped reference-text
extents of kiTwoBreaks stay inside the 400-wide svg. -/
theorem horizontalKey_clipped_extents_witness :
    0 ≤ refTickLeftEdge kiTwoBreaks srTwoBreaks ∧
    refTickRightEdge kiTwoBreaks srTwoBreaks 400 ≤ 400 :=
  horizontalKey_clipped_extents 400 srTwoBreaks kiTwoBreaks (by with_unfolding_all rfl)

/-- C8: getHorizontalRefTextInfo splits the reference label text and the
formatted reference value into the longer and the shorter by approximate text
width, and getHorizontalKeyInfo places the longer on the left of the reference
tick exactly when the relative reference position is ≥ 1/2, the shorter on the
opposite side, and swaps them when it is < 1/2. -/
theorem reference_text_side_assignment (svgWidth : ℚ) (sr : SVGRequest)
    (choropleth : Choropleth) (ki : horizontalKeyInfo)
    (hch : sr.request.Choropleth = some choropleth)
    (h : getHorizontalKeyInfo svgWidth sr = some ki) :
    (getHorizontalRefTextInfo sr.request choropleth).referenceTextShortLen ≤
      (getHorizontalRefTextInfo sr.request choropleth).referenceTextLongLen ∧
    ((getHorizontalRefTextInfo sr.request choropleth).referenceTextLong =
        choropleth.ReferenceValueText ∧
      (getHorizontalRefTextInfo sr.request choropleth).referenceTextShort =
        formatG choropleth.ReferenceValue ∨
      (getHorizontalRefTextInfo sr.request choropleth).referenceTextLong =
        formatG choropleth.ReferenceValue ∧
      (getHorizontalRefTextInfo sr.request choropleth).referenceTextShort =
        choropleth.ReferenceValueText) ∧
    (1 / 2 ≤ sr.referencePos →
      ki.referenceTextLeft =
        (getHorizontalRefTextInfo sr.request choropleth).referenceTextLong ∧
      ki.referenceTextRight =
        (getHorizontalRefTextInfo sr.request choropleth).referenceTextShort) ∧
    (sr.referencePos < 1 / 2 →
      ki.referenceTextLeft =
        (getHorizontalRefTextInfo sr.request choropleth).referenceTextShort ∧
      ki.referenceTextRight =
        (getHorizontalRefTextInfo sr.request choropleth).referenceTextLong) := by
  have hlen : (getHorizontalRefTextInfo sr.request choropleth).referenceTextShortLen ≤
      (getHorizontalRefTextInfo sr.request choropleth).referenceTextLongLen := by
    unfold getHorizontalRefTextInfo
    dsimp only
    split_ifs with hcmp
    · exact le_of_lt hcmp
    · exact not_lt.mp hcmp
  have hwhich : (getHorizontalRefTextInfo sr.request choropleth).referenceTextLong =
      choropleth.ReferenceValueText ∧
      (getHorizontalRefTextInfo sr.request choropleth).referenceTextShort =
        formatG choropleth.ReferenceValue ∨
      (getHorizontalRefTextInfo sr.request choropleth).referenceTextLong =
        formatG choropleth.ReferenceValue ∧
      (getHorizontalRefTextInfo sr.request choropleth).referenceTextShort =
        choropleth.ReferenceValueText := by
    unfold getHorizontalRefTextInfo
    dsimp only
    split_ifs
    · exact Or.inl ⟨rfl, rfl⟩
    · exact Or.inr ⟨rfl, rfl⟩
  simp only [getHorizontalKeyInfo, hch] at h
  rcases hbr : sr.breaks with _ | ⟨b0, brest⟩
  · rw [hbr] at h
    exact Option.noConfusion h
  · simp only [hbr] at h
    injection h with h'
    subst h'
    refine ⟨hlen, hwhich, fun hc => ?_, fun hc => ?_⟩
    · have hrp : ¬sr.referencePos < 1 / 2 := not_lt.mpr hc
      exact ⟨by dsimp only; rw [if_neg hrp], by dsimp only; rw [if_neg hrp]⟩
    · exact ⟨by dsimp only; rw [if_pos hc], by dsimp only; rw [if_pos hc]⟩

/-- Witness for C8 at srTwoBreaks (reference position exactly 1/2): the longer
reference text sits on the left of the tick, the shorter on the right. -/
theorem reference_text_side_assignment_witness :
    kiTwoBreaks.referenceTextLeft =
      (getHorizontalRefTextInfo srTwoBreaks.request chTwoBreaks).referenceTextLong ∧
    kiTwoBreaks.referenceTextRight =
      (getHorizontalRefTextInfo srTwoBreaks.request chTwoBreaks).referenceTextShort :=
  (reference_text_side_assignment 400 srTwoBreaks chTwoBreaks kiTwoBreaks rfl
    (by with_unfolding_all rfl)).2.2.1 (by with_unfolding_all decide)

/-- Go map semantics on a cons: the entries inserted later (the tail, holding
later data rows) win over the head entry. -/
theorem mapLookup_cons (e : String × valueAndColour) (dm : List (String × valueAndColour))
    (key : String) :
    mapLookup (e :: dm) key =
      match mapLookup dm key with
      | some vc => some vc
      | none => if e.1 = key then some e.2 else none := by
  by_cases he : e.1 = key <;>
    cases hf : dm.reverse.find? (fun p => decide (p.1 = key)) <;>
      simp [mapLookup, List.reverse_cons, List.find?_append, List.find?_cons, hf, he]

/-- matchingRow on a cons: later rows win over the head row. -/
theorem matchingRow_cons (row : DataRow) (rest : List DataRow) (pfx key : String) :
    matchingRow (row :: rest) pfx key =
      match matchingRow rest pfx key with
      | some r => some r
      | none => if pfx ++ row.ID = key then some row else none := by
  by_cases he : pfx ++ row.ID = key <;>
    cases hf : rest.reverse.find? (fun r => decide (pfx ++ r.ID = key)) <;>
      simp [matchingRow, List.reverse_cons, List.find?_append, List.find?_cons, hf, he]

/-- Every row of a data slice accepted by mapRows has a colour. -/
theorem mapRows_colour_some (breaks : List ChoroplethBreak) (pfx : String)
    (data : List DataRow) (dm : List (String × valueAndColour))
    (h : mapRows breaks pfx data = some dm) :
    ∀ row ∈ data, ∃ c, getColour row.Value breaks = some c := by
  induction data generalizing dm with
  | nil => intro row hrow; cases hrow
  | cons r rest ih =>
    intro row hrow
    simp only [mapRows] at h
    cases hc : getColour r.Value breaks with
    | none => rw [hc] at h; exact Option.noConfusion h
    | some c =>
      cases hm : mapRows breaks pfx rest with
      | none => rw [hc, hm] at h; exact Option.noConfusion h
      | some dm' =>
        rcases List.mem_cons.mp hrow with rfl | hmem
        · exact ⟨c, hc⟩
        · exact ih dm' hm row hmem

/-- The id map built by mapRows looks up exactly like the data slice itself:
the entry for a key is the last matching row's value paired with its getColour
colour. -/
theorem mapRows_lookup (breaks : List ChoroplethBreak) (pfx : String)
    (data : List DataRow) (dm : List (String × valueAndColour))
    (h : mapRows breaks pfx data = some dm) (key : String) :
    mapLookup dm key = (matchingRow data pfx key).bind
      (fun row => (getColour row.Value breaks).map
        (fun c => (⟨row.Value, c⟩ : valueAndColour))) := by
  induction data generalizing dm with
  | nil =>
    simp only [mapRows, Option.some.injEq] at h
    subst h
    simp [mapLookup, matchingRow]
  | cons r rest ih =>
    simp only [mapRows] at h
    cases hc : getColour r.Value breaks with
    | none => rw [hc] at h; exact Option.noConfusion h
    | some c =>
      cases hm : mapRows breaks pfx rest with
      | none => rw [hc, hm] at h; exact Option.noConfusion h
      | some dm' =>
        rw [hc, hm] at h
        simp only [Option.some.injEq] at h
        subst h
        rw [mapLookup_cons, matchingRow_cons, ih dm' hm]
        cases hmr : matchingRow rest pfx key with
        | some r' =>
          have hmem : r' ∈ rest := by
            have := List.mem_of_find?_eq_some hmr
            exact List.mem_reverse.mp this
          obtain ⟨c', hc'⟩ := mapRows_colour_some breaks pfx rest dm' hm r' hmem
          simp [hc']
        | none =>
          by_cases hid : pfx ++ r.ID = key <;> simp [hid, hc]

/-- C7: whenever setChoroplethColoursAndTitles runs (non-nil choropleth, data
and geography) and completes, every output feature stands in
colouredFeatureSpec to its input feature: missing-data pattern fill and a
title ending in "data unavailable" for features with no matching data row, and
the getColour fill with a prefixed/suffixed value title for matched
features. -/
theorem choropleth_colours_and_titles_spec (request : RenderRequest)
    (choropleth : Choropleth) (data : List DataRow) (geo : Geography)
    (features features' : List Feature)
    (hch : request.Choropleth = some choropleth)
    (hdata : request.Data = some data)
    (hgeo : request.Geography = some geo)
    (hrun : setChoroplethColoursAndTitles features request = some features') :
    List.Forall₂ (colouredFeatureSpec request choropleth data geo) features features' := by
  simp only [setChoroplethColoursAndTitles, hch, hdata] at hrun
  cases hdm : mapDataToColour data choropleth (idPfx request ++ "-") with
  | none =>
    rw [hdm] at hrun
    exact Option.noConfusion hrun
  | some dm =>
    rw [hdm] at hrun
    rw [hgeo] at hrun
    have hrows : mapRows (sortBreaks choropleth.Breaks false) (idPfx request ++ "-")
        data = some dm := hdm
    induction features generalizing features' with
    | nil =>
      simp only [processFeatures, Option.some.injEq] at hrun
      subst hrun
      exact List.Forall₂.nil
    | cons f fs ih =>
      simp only [processFeatures] at hrun
      cases hrest : processFeatures choropleth (some geo) dm
          ("fill: url(#" ++ idPfx request ++ "-nodata);") fs with
      | none => rw [hrest] at hrun; exact Option.noConfusion hrun
      | some rest' =>
        rw [hrest] at hrun
        simp only [Option.some.injEq] at hrun
        subst hrun
        refine List.Forall₂.cons ?_ (ih rest' hrest)
        have hlk := mapRows_lookup _ _ _ _ hrows f.ID
        constructor
        · intro hnone
          rw [hnone] at hlk
          simp only [Option.none_bind] at hlk
          simp [processFeature, hlk]
        · intro row hrow
          rw [hrow] at hlk
          simp only [Option.some_bind] at hlk
          have hmem : row ∈ data :=
            List.mem_reverse.mp (List.mem_of_find?_eq_some hrow)
          obtain ⟨c, hc⟩ := mapRows_colour_some _ _ _ _ hrows row hmem
          refine ⟨c, hc, ?_⟩
          rw [hc] at hlk
          simp only [Option.map_some'] at hlk
          simp [processFeature, hlk]

/-- Witness for C7 at reqColoured and featuresColoured: the matched feature
gets "fill: red;" and title "Region A 5%", the unmatched one gets the
missing-data pattern and the "data unavailable" title. -/
theorem choropleth_colours_and_titles_witness :
    List.Forall₂
      (colouredFeatureSpec reqColoured ⟨0, "", "", "%", [⟨0, "red"⟩], 10, "none", "none"⟩
        [⟨"a", 5⟩] geoSimple)
      featuresColoured
      [⟨"map-f-a", [("name", "Region A 5%"), ("style", "fill: red;")]⟩,
       ⟨"map-f-b", [("name", " data unavailable"), ("style", "fill: url(#map-f-nodata);")]⟩] :=
  choropleth_colours_and_titles_spec reqColoured
    ⟨0, "", "", "%", [⟨0, "red"⟩], 10, "none", "none"⟩ [⟨"a", 5⟩] geoSimple
    featuresColoured _ rfl rfl rfl (by with_unfolding_all rfl)
